import Mathlib

/-!
Verification of the serial I/O and batch-dispatch core of SimpleCOM
(`src/serial_worker.py`, `src/main_window.py`), shallowly embedded in Lean.

The embedding keeps the Python structure: the receive-stamping transform of
`MainWindow._on_data_received` becomes a pure fold over characters, the batch
dispatcher `_send_next_batch_line` becomes a recursion over the remaining
lines with oracles for connectivity and transport-write outcomes, and the
`SerialWorker` methods become explicit state-passing functions.  The
background read loop and `stop()` are modelled by an interleaving small-step
relation.
-/

namespace SimpleCOM

/-- Output alphabet of the receive display: either a bracketed timestamp
token (the wall-clock text produced by `datetime.now().strftime(...)` is
abstracted, only its presence matters to the claims) or a payload
character. -/
inductive Tok where
  | stamp : Tok
  | ch : Char → Tok
deriving DecidableEq, Repr

/-- Models one character step of `MainWindow._on_data_received`
(main_window.py lines 431-439): emit a timestamp first when the flag is
set, then emit the character, and set the flag again when the character is
a newline. -/
def stepChar (need : Bool) (c : Char) : List Tok × Bool :=
  (if need then [Tok.stamp, Tok.ch c] else [Tok.ch c], c == '\n')

/-- Models `MainWindow._on_data_received` on one decoded chunk: the
`for char in text` loop, threading `_need_timestamp`. -/
def onDataReceived (need : Bool) : List Char → List Tok × Bool
  | [] => ([], need)
  | c :: rest =>
    let p := stepChar need c
    let q := onDataReceived p.2 rest
    (p.1 ++ q.1, q.2)

/-- Models feeding a sequence of chunks to `_on_data_received`, threading
the `_need_timestamp` flag across calls. -/
def onDataReceivedAll (need : Bool) : List (List Char) → List Tok × Bool
  | [] => ([], need)
  | ck :: cks =>
    let p := onDataReceived need ck
    let q := onDataReceivedAll p.2 cks
    (p.1 ++ q.1, q.2)

/-- Removes the timestamp tokens, keeping the payload characters. -/
def stripStamps (ts : List Tok) : List Char :=
  ts.filterMap fun t => match t with | Tok.stamp => none | Tok.ch c => some c

/-- Models `self._need_timestamp = True` in `MainWindow.__init__`
(main_window.py line 30). -/
def initNeedTimestamp : Bool := true

/-- Models `MainWindow._clear_receive` (main_window.py lines 453-456): the
value of `_need_timestamp` after clearing the display. -/
def clearReceive (_need : Bool) : Bool := true

/-- Models `MainWindow._add_to_history` (main_window.py lines 315-330):
move an existing entry to the top, otherwise insert at the top and trim to
100 entries from the bottom. -/
def addToHistory (text : String) (h : List String) : List String :=
  if text ∈ h then text :: h.erase text
  else (text :: h).take 100

/-- ASCII whitespace as recognized by Python `str.strip()` (the Unicode
extras do not occur in the texts considered here). -/
def pyIsSpace (c : Char) : Bool :=
  c == ' ' || c == '\t' || c == '\n' || c == '\r' || c == '\x0b' || c == '\x0c'

/-- Drops leading Python whitespace from a character list. -/
def dropLeadingWS : List Char → List Char
  | [] => []
  | c :: rest => if pyIsSpace c then dropLeadingWS rest else c :: rest

/-- Models Python `str.strip()`. -/
def pyStrip (s : String) : String :=
  String.mk ((dropLeadingWS ((dropLeadingWS s.data).reverse)).reverse)

/-- Models Python `str.split('\n')` on a character list. -/
def pySplitCharList : List Char → List (List Char)
  | [] => [[]]
  | c :: rest =>
    let r := pySplitCharList rest
    if c == '\n' then [] :: r
    else
      match r with
      | [] => [[c]]
      | h :: t => (c :: h) :: t

/-- Models Python `text.split('\n')`. -/
def pySplitOnNewline (s : String) : List String :=
  (pySplitCharList s.data).map String.mk

/-- Observable state of the batch dispatcher.  `writes` records the byte
buffers passed to the transport write call in order; `reports` records the
status-bar messages verbatim and in order (`_on_error` prefixes worker
error messages with "Error: " before they reach the status bar). -/
structure DispatchState where
  batchLines : List String
  batchIndex : Nat
  history : List String
  writes : List String
  reports : List String
deriving DecidableEq, Repr

/-- Models the progress message of `_send_next_batch_line`
(main_window.py line 400). -/
def progressMsg (i n : Nat) (line : String) : String :=
  "Sent [" ++ toString i ++ "/" ++ toString n ++ "]: " ++ line

/-- Models `MainWindow._stop_batch_send` (main_window.py lines 357-365):
stop the timer, clear the batch, report "Send stopped" (the UI-widget
toggles are omitted). -/
def stopBatchSend (s : DispatchState) : DispatchState :=
  { s with batchLines := [], batchIndex := 0, reports := s.reports ++ ["Send stopped"] }

/-- Models `_send_next_batch_line` lines 415-419, the completion path.
Note that the `len(self._batch_lines) > 1` test runs after
`_stop_batch_send` has already cleared `_batch_lines`. -/
def finishBatch (s : DispatchState) : DispatchState :=
  let s' := stopBatchSend s
  if s'.batchLines.length > 1 then { s' with reports := s'.reports ++ ["All commands sent"] }
  else s'

/-- Models the chain of `_send_next_batch_line` invocations (main_window.py
lines 367-419), one invocation per batch line; the QTimer pacing is
abstracted away, since the interval only delays the next invocation.
`conn k` is the value of `serial_worker.is_connected()` at the start of the
invocation for line `k`; `wr k` is the outcome of the transport write for
line `k` (`none` is success, `some cause` is a `SerialException` whose
message is `cause`); `remaining` is `_batch_lines[_batch_index:]`, so the
`[]` case is the `_batch_index >= len(_batch_lines)` branch of lines
371-375. -/
def sendNextBatchLine (conn : Nat → Bool) (wr : Nat → Option String) (ending : String)
    (lines : List String) :
    Nat → List String → List String → List String → List String → DispatchState
  | _, [], hist, writes, reports =>
    { batchLines := [], batchIndex := 0, history := hist, writes := writes,
      reports := reports ++ ["Send stopped", "Send completed"] }
  | i, line :: rest, hist, writes, reports =>
    if conn i then
      match wr i with
      | Option.some cause =>
        let writes' := writes ++ [line ++ ending]
        let reports' := reports ++ ["Error: Failed to send data: " ++ cause]
        match rest with
        | [] => finishBatch { batchLines := lines, batchIndex := i + 1, history := hist,
                              writes := writes', reports := reports' }
        | _ :: _ => sendNextBatchLine conn wr ending lines (i + 1) rest hist writes' reports'
      | Option.none =>
        let writes' := writes ++ [line ++ ending]
        let hist' := addToHistory line hist
        let reports' := reports ++
          [if lines.length > 1 then progressMsg (i + 1) lines.length line else "Sent: " ++ line]
        match rest with
        | [] => finishBatch { batchLines := lines, batchIndex := i + 1, history := hist',
                              writes := writes', reports := reports' }
        | _ :: _ => sendNextBatchLine conn wr ending lines (i + 1) rest hist' writes' reports'
    else
      { batchLines := [], batchIndex := 0, history := hist, writes := writes,
        reports := reports ++ ["Send stopped", "Send aborted: disconnected"] }

/-- Models the "Line Ending" combo choices (main_window.py line 138). -/
inductive LineEnding where
  | noEnd : LineEnding
  | cr : LineEnding
  | lf : LineEnding
  | crlf : LineEnding
deriving DecidableEq, Repr

/-- Models the terminator appended in `_send_next_batch_line`
(main_window.py lines 386-392). -/
def endingText : LineEnding → String
  | LineEnding.noEnd => ""
  | LineEnding.cr => "\r"
  | LineEnding.lf => "\n"
  | LineEnding.crlf => "\r\n"

/-- Models `MainWindow._start_send` (main_window.py lines 296-313): strip
the buffer, split it into lines, drop blank and whitespace-only lines, and
dispatch line 0 immediately. -/
def startSend (text : String) (ending : String) (conn : Nat → Bool)
    (wr : Nat → Option String) (hist : List String) : DispatchState :=
  let t := pyStrip text
  if t.data.isEmpty then
    { batchLines := [], batchIndex := 0, history := hist, writes := [], reports := [] }
  else
    let lines := (pySplitOnNewline t).filter fun l => !(pyStrip l).data.isEmpty
    match lines with
    | [] => { batchLines := [], batchIndex := 0, history := hist, writes := [], reports := [] }
    | _ :: _ => sendNextBatchLine conn wr ending lines 0 lines hist [] []

/-- Expected command history after a fully-connected batch run: line `k` is
recorded exactly when its write succeeded. -/
def historyAfterRun (wr : Nat → Option String) : Nat → List String → List String → List String
  | _, [], h => h
  | i, l :: rest, h =>
    historyAfterRun wr (i + 1) rest
      (match wr i with | Option.none => addToHistory l h | Option.some _ => h)

/-- Expected report trace of a fully-connected batch run over `n` total
lines, starting at line index `i`. -/
def reportsAfterRun (wr : Nat → Option String) (n : Nat) : Nat → List String → List String
  | _, [] => ["Send stopped"]
  | i, l :: rest =>
    (match wr i with
     | Option.none => if n > 1 then progressMsg (i + 1) n l else "Sent: " ++ l
     | Option.some c => "Error: Failed to send data: " ++ c) :: reportsAfterRun wr n (i + 1) rest

/-- Signals emitted by `SerialWorker` that matter to the claims
(serial_worker.py lines 16-20). -/
inductive WEvent where
  | connChanged : Bool → WEvent
  | errorMsg : String → WEvent
deriving DecidableEq, Repr

/-- State of a `SerialWorker`.  `isOpen` stands for
`self._serial is not None and self._serial.is_open` (the code never
distinguishes the two conjuncts); `written` records the byte buffers that
the blocking `serial.Serial.write` confirmed fully written: with no write
timeout configured, pyserial's `write` returns only once the whole buffer
has been handed to the transport and raises `SerialException` otherwise. -/
structure WorkerState where
  isOpen : Bool
  running : Bool
  written : List String
  events : List WEvent
deriving DecidableEq, Repr

/-- Models `SerialWorker.is_connected` (serial_worker.py lines 75-77). -/
def isConnected (s : WorkerState) : Bool := s.isOpen

/-- Models `SerialWorker.send_data` (serial_worker.py lines 79-90).
`writeRes` is the transport outcome: `none` means the whole buffer was
written, `some cause` means `self._serial.write` raised
`SerialException(cause)`. -/
def sendData (writeRes : Option String) (data : String) (s : WorkerState) :
    Bool × WorkerState :=
  if isConnected s then
    match writeRes with
    | Option.none => (true, { s with written := s.written ++ [data] })
    | Option.some c =>
      (false, { s with events := s.events ++ [WEvent.errorMsg ("Failed to send data: " ++ c)] })
  else
    (false, { s with events := s.events ++ [WEvent.errorMsg "Serial port is not connected"] })

/-- Models `SerialWorker.disconnect_port` (serial_worker.py lines 65-73).
`closeRaises` says whether the OS-level close raised; the
`try/except Exception: pass` swallows it either way, so the result does
not depend on it.  The `connection_changed` signal is emitted on every
call, unconditionally. -/
def disconnectPort (_closeRaises : Bool) (s : WorkerState) : WorkerState :=
  { s with running := false, isOpen := false,
           events := s.events ++ [WEvent.connChanged false] }

/-- Models the result of the `serial.Serial(...)` constructor in
`SerialWorker.connect_port` (serial_worker.py lines 50-57): it either
yields an open handle or raises `SerialException` with a descriptive
message. -/
inductive OpenResult where
  | ok : OpenResult
  | fail : String → OpenResult
deriving DecidableEq, Repr

/-- Models `SerialWorker.connect_port` (serial_worker.py lines 44-63):
close any already-open handle first, then open; on `SerialException`
report a descriptive cause via `error_occurred` and return `False` (the
exception is caught, never propagated to the caller). -/
def connectPort (res : OpenResult) (s : WorkerState) : Bool × WorkerState :=
  let s1 := if s.isOpen then { s with isOpen := false } else s
  match res with
  | OpenResult.ok =>
    (true, { s1 with isOpen := true, running := true,
                     events := s1.events ++ [WEvent.connChanged true] })
  | OpenResult.fail c =>
    (false, { s1 with events := s1.events ++ [WEvent.errorMsg ("Failed to open port: " ++ c)] })

/-- Program counter of the reader thread `SerialWorker.run`
(serial_worker.py lines 92-106): `top` is about to evaluate
`while self._running`, `body` is committed to this iteration's poll,
`exited` means `run` has returned. -/
inductive RPC where
  | top : RPC
  | body : RPC
  | exited : RPC
deriving DecidableEq, Repr

/-- Joint state of the reader thread and the foreground caller of
`SerialWorker.stop` (serial_worker.py lines 108-112).  `polls` lists, for
each future poll of the serial handle, whether data is available. -/
structure SysState where
  running : Bool
  rpc : RPC
  polls : List Bool
  stopRequested : Bool
  stopReturned : Bool
deriving DecidableEq, Repr

/-- Externally visible events of the reader/stop interleaving. -/
inductive SysEvent where
  | dataReceived : SysEvent
  | stopReturn : SysEvent
deriving DecidableEq, Repr

/-- Interleaving small-step semantics of the reader thread and `stop()`.
`checkTrue`/`checkFalse` are the `while self._running` test; `pollStep` is
one loop body, emitting `data_received` when data was available;
`readErr` is the `SerialException` handler that breaks out of the loop;
`stopRequest` is the body of `stop()` before `self.wait()` (it clears
`_running`); `stopWaitReturn` is `QThread.wait` returning, which Qt allows
only once `run` has exited. -/
inductive SysStep : SysState → Option SysEvent → SysState → Prop where
  | checkTrue (s : SysState) (h1 : s.rpc = RPC.top) (h2 : s.running = true) :
      SysStep s Option.none { s with rpc := RPC.body }
  | checkFalse (s : SysState) (h1 : s.rpc = RPC.top) (h2 : s.running = false) :
      SysStep s Option.none { s with rpc := RPC.exited }
  | pollStep (s : SysState) (b : Bool) (rest : List Bool) (h1 : s.rpc = RPC.body)
      (h2 : s.polls = b :: rest) :
      SysStep s (if b then Option.some SysEvent.dataReceived else Option.none)
        { s with rpc := RPC.top, polls := rest }
  | readErr (s : SysState) (h1 : s.rpc = RPC.body) :
      SysStep s Option.none { s with rpc := RPC.exited, running := false }
  | stopRequest (s : SysState) (h1 : s.stopRequested = false) :
      SysStep s Option.none { s with running := false, stopRequested := true }
  | stopWaitReturn (s : SysState) (h1 : s.stopRequested = true) (h2 : s.rpc = RPC.exited)
      (h3 : s.stopReturned = false) :
      SysStep s (Option.some SysEvent.stopReturn) { s with stopReturned := true }

/-- Finite interleaved executions, collecting emitted events in order. -/
inductive SysExec : SysState → List SysEvent → SysState → Prop where
  | done (s : SysState) : SysExec s [] s
  | step (s : SysState) (e : Option SysEvent) (s1 : SysState) (t : List SysEvent)
      (s2 : SysState) (hs : SysStep s e s1) (he : SysExec s1 t s2) :
      SysExec s (e.toList ++ t) s2

/-- Holds when no `dataReceived` event follows a `stopReturn` event in the
trace (the flag records whether a `stopReturn` has already occurred). -/
def noDataAfterStop : Bool → List SysEvent → Prop
  | true, t => SysEvent.dataReceived ∉ t
  | false, [] => True
  | false, e :: t => noDataAfterStop (e == SysEvent.stopReturn) t

/-- Invariant of the reader/stop interleaving: once `stop()` has returned,
the read loop has exited. -/
def StopInv (s : SysState) : Prop := s.stopReturned = true → s.rpc = RPC.exited

/-! ## Theorems -/

theorem stripStamps_append (a b : List Tok) :
    stripStamps (a ++ b) = stripStamps a ++ stripStamps b := by
  simp [stripStamps]

theorem stripStamps_onDataReceived (ck : List Char) :
    ∀ need, stripStamps (onDataReceived need ck).1 = ck := by
  induction ck with
  | nil => intro need; simp [onDataReceived, stripStamps]
  | cons c rest ih =>
    intro need
    simp only [onDataReceived, stripStamps_append]
    rw [ih]
    cases need <;> simp [stepChar, stripStamps]

/-- C1: for every sequence of chunks fed to the receive-stamping transform,
stripping the emitted timestamp tokens from the concatenated output yields
exactly the concatenation of the chunks: timestamping never drops,
duplicates, or reorders any payload character. -/
theorem stamping_payload_lossless (need : Bool) (chunks : List (List Char)) :
    stripStamps (onDataReceivedAll need chunks).1 = chunks.flatten := by
  induction chunks generalizing need with
  | nil => simp [onDataReceivedAll, stripStamps]
  | cons ck cks ih =>
    simp only [onDataReceivedAll, List.flatten, stripStamps_append]
    rw [stripStamps_onDataReceived, ih]

theorem onDataReceived_last_newline (chunk : List Char) :
    ∀ need, chunk.getLast? = some '\n' → (onDataReceived need chunk).2 = true := by
  induction chunk with
  | nil => intro need h; simp at h
  | cons c rest ih =>
    intro need h
    cases rest with
    | nil =>
      simp at h
      subst h
      simp [onDataReceived, stepChar]
    | cons d ds =>
      rw [List.getLast?_cons_cons] at h
      simp only [onDataReceived]
      exact ih _ h

theorem onDataReceivedAll_first_stamped (chunks : List (List Char)) :
    ∀ c rest, chunks.flatten = c :: rest →
      (onDataReceivedAll true chunks).1.take 2 = [Tok.stamp, Tok.ch c] := by
  induction chunks with
  | nil => intro c rest h; simp at h
  | cons ck cks ih =>
    intro c rest h
    cases ck with
    | nil =>
      simp only [List.flatten_cons, List.nil_append] at h
      simp only [onDataReceivedAll, onDataReceived, List.nil_append]
      exact ih c rest h
    | cons d ds =>
      simp only [List.flatten_cons, List.cons_append] at h
      obtain ⟨hd, _⟩ := List.cons.inj h
      subst hd
      simp [onDataReceivedAll, onDataReceived, stepChar]

/-- C2: the pending-timestamp flag is true initially and after clearing the
display; one character step with the flag set emits exactly one timestamp
then the character and leaves the flag set only for a newline; after any
chunk ending in a newline the flag is set again; and consequently the first
character fed after such a chunk (under any further chunking) is preceded
by exactly one timestamp. -/
theorem pending_timestamp_invariant (need : Bool) (chunk : List Char)
    (chunks : List (List Char)) (c : Char) (rest : List Char)
    (hlast : chunk.getLast? = some '\n') (hjoin : chunks.flatten = c :: rest) :
    initNeedTimestamp = true ∧
    (∀ b, clearReceive b = true) ∧
    (onDataReceived need chunk).2 = true ∧
    (∀ d, stepChar true d = ([Tok.stamp, Tok.ch d], d == '\n')) ∧
    (onDataReceivedAll true chunks).1.take 2 = [Tok.stamp, Tok.ch c] ∧
    (onDataReceivedAll (onDataReceived need chunk).2 chunks).1.take 2 =
      [Tok.stamp, Tok.ch c] := by
  have hflag := onDataReceived_last_newline chunk need hlast
  have hfirst := onDataReceivedAll_first_stamped chunks c rest hjoin
  refine ⟨rfl, fun b => rfl, hflag, fun d => by simp [stepChar], hfirst, ?_⟩
  rw [hflag]
  exact hfirst

/-- Witness for C2 at a concrete chunk ending in a newline followed by a
concrete next chunk. -/
theorem pending_timestamp_invariant_witness :
    initNeedTimestamp = true ∧
    (∀ b, clearReceive b = true) ∧
    (onDataReceived false ['x', '\n']).2 = true ∧
    (∀ d, stepChar true d = ([Tok.stamp, Tok.ch d], d == '\n')) ∧
    (onDataReceivedAll true [['y']]).1.take 2 = [Tok.stamp, Tok.ch 'y'] ∧
    (onDataReceivedAll (onDataReceived false ['x', '\n']).2 [['y']]).1.take 2 =
      [Tok.stamp, Tok.ch 'y'] :=
  pending_timestamp_invariant false ['x', '\n'] [['y']] 'y' [] rfl rfl

/-- C3: evaluation of the batch `start("a\n\nb\n", CRLF, 0)` with the
channel connected and every write succeeding.  The blank line is skipped
and exactly the two writes "a\r\n" then "b\r\n" are performed with the
progress reports "Sent [1/2]: a" and "Sent [2/2]: b", but the final report
is "Send stopped", not a completion report: the `len(self._batch_lines)>1`
test of main_window.py line 418 runs after `_stop_batch_send` has cleared
`_batch_lines`, so the "All commands sent" message is unreachable. -/
theorem batch_run_final_report_bug :
    startSend "a\n\nb\n" (endingText LineEnding.crlf) (fun _ => true) (fun _ => Option.none)
        [] =
      { batchLines := [], batchIndex := 0, history := ["b", "a"],
        writes := ["a\r\n", "b\r\n"],
        reports := ["Sent [1/2]: a", "Sent [2/2]: b", "Send stopped"] } := by
  rfl

/-- C4: whenever a batch-line dispatch is attempted while the channel is
not connected, the invocation performs no write, clears the batch (so no
further dispatch can occur), and reports "Send aborted: disconnected". -/
theorem dispatch_aborts_when_disconnected (conn : Nat → Bool) (wr : Nat → Option String)
    (ending : String) (lines : List String) (i : Nat) (line : String)
    (rest hist writes reports : List String) (hc : conn i = false) :
    sendNextBatchLine conn wr ending lines i (line :: rest) hist writes reports =
      { batchLines := [], batchIndex := 0, history := hist, writes := writes,
        reports := reports ++ ["Send stopped", "Send aborted: disconnected"] } := by
  simp [sendNextBatchLine, hc]

/-- Witness for C4: a three-line batch whose channel disconnects after line
1 has been dispatched halts with exactly one write and the abort report. -/
theorem dispatch_aborts_when_disconnected_witness :
    startSend "x\ny\nz\n" "\r\n" (fun k => k == 0) (fun _ => Option.none) [] =
      { batchLines := [], batchIndex := 0, history := ["x"], writes := ["x\r\n"],
        reports := ["Sent [1/3]: x", "Send stopped", "Send aborted: disconnected"] } :=
  dispatch_aborts_when_disconnected (fun k => k == 0) (fun _ => Option.none) "\r\n"
    ["x", "y", "z"] 1 "y" ["z"] ["x"] ["x\r\n"] ["Sent [1/3]: x"] rfl

theorem sendNextBatchLine_step_ok (conn : Nat → Bool) (wr : Nat → Option String)
    (ending : String) (lines : List String) (i : Nat) (line l2 : String)
    (rest2 hist writes reports : List String)
    (h1 : conn i = true) (h2 : wr i = Option.none) :
    sendNextBatchLine conn wr ending lines i (line :: l2 :: rest2) hist writes reports =
      sendNextBatchLine conn wr ending lines (i + 1) (l2 :: rest2) (addToHistory line hist)
        (writes ++ [line ++ ending])
        (reports ++ [if lines.length > 1 then progressMsg (i + 1) lines.length line
                     else "Sent: " ++ line]) := by
  simp [sendNextBatchLine, h1, h2]

theorem sendNextBatchLine_step_err (conn : Nat → Bool) (wr : Nat → Option String)
    (ending : String) (lines : List String) (i : Nat) (line l2 : String)
    (rest2 hist writes reports : List String) (cause : String)
    (h1 : conn i = true) (h2 : wr i = Option.some cause) :
    sendNextBatchLine conn wr ending lines i (line :: l2 :: rest2) hist writes reports =
      sendNextBatchLine conn wr ending lines (i + 1) (l2 :: rest2) hist
        (writes ++ [line ++ ending])
        (reports ++ ["Error: Failed to send data: " ++ cause]) := by
  simp [sendNextBatchLine, h1, h2]

theorem sendNextBatchLine_run (conn : Nat → Bool) (wr : Nat → Option String)
    (ending : String) (lines : List String) (hc : ∀ k, conn k = true) :
    ∀ (remaining : List String) (i : Nat) (hist writes reports : List String),
      remaining ≠ [] →
      sendNextBatchLine conn wr ending lines i remaining hist writes reports =
        { batchLines := [], batchIndex := 0,
          history := historyAfterRun wr i remaining hist,
          writes := writes ++ remaining.map (fun l => l ++ ending),
          reports := reports ++ reportsAfterRun wr lines.length i remaining } := by
  intro remaining
  induction remaining with
  | nil => intro i hist writes reports hne; exact absurd rfl hne
  | cons line rest ih =>
    intro i hist writes reports _
    cases rest with
    | nil =>
      cases hwr : wr i with
      | none =>
        simp [sendNextBatchLine, hc i, hwr, finishBatch, stopBatchSend,
          historyAfterRun, reportsAfterRun]
      | some cause =>
        simp [sendNextBatchLine, hc i, hwr, finishBatch, stopBatchSend,
          historyAfterRun, reportsAfterRun]
    | cons l2 rest2 =>
      cases hwr : wr i with
      | none =>
        rw [sendNextBatchLine_step_ok conn wr ending lines i line l2 rest2 hist writes reports
          (hc i) hwr]
        rw [ih (i + 1) _ _ _ (by simp)]
        simp [historyAfterRun, reportsAfterRun, hwr]
      | some cause =>
        rw [sendNextBatchLine_step_err conn wr ending lines i line l2 rest2 hist writes reports
          cause (hc i) hwr]
        rw [ih (i + 1) _ _ _ (by simp)]
        simp [historyAfterRun, reportsAfterRun, hwr]

/-- C5: with the channel connected throughout, a batch run attempts the
write of every line in order regardless of which individual writes fail
(the index increments unconditionally after each attempt, so a failed write
does not abort the batch), and the command history records exactly the
lines whose write succeeded. -/
theorem batch_continues_after_write_failure (conn : Nat → Bool) (wr : Nat → Option String)
    (ending : String) (lines hist : List String)
    (hc : ∀ k, conn k = true) (hne : lines ≠ []) :
    sendNextBatchLine conn wr ending lines 0 lines hist [] [] =
      { batchLines := [], batchIndex := 0,
        history := historyAfterRun wr 0 lines hist,
        writes := lines.map (fun l => l ++ ending),
        reports := reportsAfterRun wr lines.length 0 lines } := by
  have h := sendNextBatchLine_run conn wr ending lines hc lines 0 hist [] [] hne
  simpa using h

/-- Witness for C5: a two-line batch whose first write fails still
dispatches the second line, and only the second line enters history. -/
theorem batch_continues_after_write_failure_witness :
    sendNextBatchLine (fun _ => true)
        (fun k => if k == 0 then Option.some "boom" else Option.none)
        "\r\n" ["x", "y"] 0 ["x", "y"] [] [] [] =
      { batchLines := [], batchIndex := 0,
        history := historyAfterRun
          (fun k => if k == 0 then Option.some "boom" else Option.none) 0 ["x", "y"] [],
        writes := ["x", "y"].map (fun l => l ++ "\r\n"),
        reports := reportsAfterRun
          (fun k => if k == 0 then Option.some "boom" else Option.none) 2 0 ["x", "y"] } :=
  batch_continues_after_write_failure (fun _ => true)
    (fun k => if k == 0 then Option.some "boom" else Option.none)
    "\r\n" ["x", "y"] [] (fun _ => rfl) (by simp)

/-- C10: adding a sent command to the history preserves the invariant that
the history has no duplicates and at most 100 entries (an existing entry is
moved to the top instead of duplicated; a new entry is inserted at the top
and the list is trimmed to 100 from the bottom). -/
theorem history_nodup_and_bounded (t : String) (h : List String)
    (hnd : h.Nodup) (hlen : h.length ≤ 100) :
    (addToHistory t h).Nodup ∧ (addToHistory t h).length ≤ 100 := by
  by_cases hm : t ∈ h
  · have hpos : 0 < h.length := List.length_pos.mpr (List.ne_nil_of_mem hm)
    constructor
    · simp only [addToHistory, hm, if_true]
      refine List.nodup_cons.mpr ⟨?_, hnd.erase t⟩
      intro hcontra
      exact ((List.Nodup.mem_erase_iff hnd).1 hcontra).1 rfl
    · simp only [addToHistory, hm, if_true, List.length_cons,
        List.length_erase_of_mem hm]
      omega
  · constructor
    · simp only [addToHistory, hm, if_false]
      exact List.Nodup.sublist (List.take_sublist 100 (t :: h))
        (List.nodup_cons.mpr ⟨hm, hnd⟩)
    · simp only [addToHistory, hm, if_false]
      exact List.length_take_le 100 _

/-- Witness for C10 at a concrete history. -/
theorem history_nodup_and_bounded_witness :
    (addToHistory "a" ["b"]).Nodup ∧ (addToHistory "a" ["b"]).length ≤ 100 :=
  history_nodup_and_bounded "a" ["b"] (by simp) (by simp)

/-- C6: `send_data` reports success exactly when the channel is connected
and the blocking transport write confirmed the whole buffer; when it does,
the full buffer was handed to the transport.  When disconnected it fails
with the not-connected error, and on a transport error it fails with the
write error carrying the cause. -/
theorem send_data_result_spec (writeRes : Option String) (data : String) (s : WorkerState) :
    ((sendData writeRes data s).1 = true ↔
      isConnected s = true ∧ writeRes = Option.none) ∧
    ((sendData writeRes data s).1 = true →
      (sendData writeRes data s).2.written = s.written ++ [data]) ∧
    (isConnected s = false →
      sendData writeRes data s =
        (false, { s with
          events := s.events ++ [WEvent.errorMsg "Serial port is not connected"] })) ∧
    (∀ c, isConnected s = true → writeRes = Option.some c →
      sendData writeRes data s =
        (false, { s with
          events := s.events ++ [WEvent.errorMsg ("Failed to send data: " ++ c)] })) := by
  cases hs : s.isOpen <;> cases writeRes <;>
    simp [sendData, isConnected, hs]

/-- Witness for C6: a successful write on a connected channel. -/
theorem send_data_result_spec_witness :
    (sendData Option.none "x"
        { isOpen := true, running := true, written := [], events := [] }).1 = true :=
  (send_data_result_spec Option.none "x"
    { isOpen := true, running := true, written := [], events := [] }).1.mpr ⟨rfl, rfl⟩

/-- Counterexample to C7 as stated: two consecutive `disconnect_port` calls
from a connected state emit `connection_changed(False)` twice, not exactly
once — the emit at serial_worker.py line 73 is unconditional. -/
theorem close_notifies_once_counterexample :
    ¬ ((disconnectPort false (disconnectPort false
        { isOpen := true, running := true, written := [], events := [] })).events.count
        (WEvent.connChanged false) = 1) := by
  decide

theorem disconnectPort_iterate_events (cr : Bool) (s : WorkerState) (n : Nat) :
    ((disconnectPort cr)^[n] s).events =
      s.events ++ List.replicate n (WEvent.connChanged false) := by
  induction n generalizing s with
  | zero => simp
  | succ n ih =>
    rw [Function.iterate_succ_apply, ih]
    simp [disconnectPort, List.replicate_succ]

/-- C7 amended: `close()` is idempotent in effect — it releases the handle,
swallows close-time errors (the result does not depend on whether the OS
close raised), and leaves the state Disconnected — but it notifies
observers of the state change once per call, so `n` consecutive calls
produce `n` notifications rather than exactly one. -/
theorem close_idempotent_amended (cr cr2 : Bool) (s : WorkerState) (n : Nat) :
    (disconnectPort cr s).running = false ∧
    (disconnectPort cr s).isOpen = false ∧
    isConnected (disconnectPort cr s) = false ∧
    disconnectPort cr2 s = disconnectPort cr s ∧
    (disconnectPort cr s).events = s.events ++ [WEvent.connChanged false] ∧
    ((disconnectPort cr)^[n] s).events =
      s.events ++ List.replicate n (WEvent.connChanged false) :=
  ⟨rfl, rfl, rfl, rfl, rfl, disconnectPort_iterate_events cr s n⟩

/-- C8: `connect_port` behaves as if any already-open handle were closed
first (idempotent open), and on an open failure it returns `False`, leaves
the connection state Disconnected, and reports an `OpenError` with a
descriptive cause instead of raising (the model is a total function: the
`SerialException` is caught inside `connect_port`). -/
theorem open_closes_first_and_fails_disconnected (res : OpenResult) (s : WorkerState)
    (c : String) :
    connectPort res s = connectPort res { s with isOpen := false } ∧
    (connectPort (OpenResult.fail c) s).1 = false ∧
    isConnected (connectPort (OpenResult.fail c) s).2 = false ∧
    (connectPort (OpenResult.fail c) s).2.events =
      s.events ++ [WEvent.errorMsg ("Failed to open port: " ++ c)] := by
  obtain ⟨o, r, w, e⟩ := s
  cases o <;> cases res <;> simp [connectPort, isConnected]

theorem sysStep_inv {s : SysState} {e : Option SysEvent} {s' : SysState}
    (h : SysStep s e s') (hi : StopInv s) : StopInv s' := by
  cases h with
  | checkTrue h1 h2 =>
    intro hr
    have h3 := hi hr
    rw [h1] at h3
    simp at h3
  | checkFalse h1 h2 => intro hr; rfl
  | pollStep b rest h1 h2 =>
    intro hr
    have h3 := hi hr
    rw [h1] at h3
    simp at h3
  | readErr h1 => intro hr; rfl
  | stopRequest h1 => intro hr; exact hi hr
  | stopWaitReturn h1 h2 h3 => intro hr; exact h2

theorem sysStep_stopReturned {s : SysState} {e : Option SysEvent} {s' : SysState}
    (h : SysStep s e s') :
    s'.stopReturned = (s.stopReturned || (e == Option.some SysEvent.stopReturn)) := by
  cases h with
  | checkTrue h1 h2 => simp
  | checkFalse h1 h2 => simp
  | pollStep b rest h1 h2 => cases b <;> simp
  | readErr h1 => simp
  | stopRequest h1 => simp
  | stopWaitReturn h1 h2 h3 => simp

theorem sysStep_no_data_when_exited {s : SysState} {e : Option SysEvent} {s' : SysState}
    (h : SysStep s e s') (hrpc : s.rpc = RPC.exited) :
    e ≠ Option.some SysEvent.dataReceived := by
  cases h with
  | checkTrue h1 h2 => simp
  | checkFalse h1 h2 => simp
  | pollStep b rest h1 h2 => rw [hrpc] at h1; simp at h1
  | readErr h1 => simp
  | stopRequest h1 => simp
  | stopWaitReturn h1 h2 h3 => simp

theorem sysExec_noData {s : SysState} {t : List SysEvent} {s' : SysState}
    (h : SysExec s t s') : StopInv s → noDataAfterStop s.stopReturned t := by
  induction h with
  | done s =>
    intro _
    cases hr : s.stopReturned <;> simp [noDataAfterStop]
  | step s e s1 t s2 hs he ih =>
    intro hi
    have hi1 : StopInv s1 := sysStep_inv hs hi
    have hret := sysStep_stopReturned hs
    cases hr : s.stopReturned with
    | true =>
      have hrpc : s.rpc = RPC.exited := hi hr
      have hne := sysStep_no_data_when_exited hs hrpc
      have h1 : s1.stopReturned = true := by rw [hret, hr]; simp
      have ihv := ih hi1
      rw [h1] at ihv
      simp only [noDataAfterStop]
      simp only [noDataAfterStop] at ihv
      intro hmem
      rw [List.mem_append] at hmem
      cases hmem with
      | inl hin =>
        cases e with
        | none => simp at hin
        | some ev =>
          simp at hin
          exact hne (by rw [hin])
      | inr hin => exact ihv hin
    | false =>
      rw [hr] at hret
      cases e with
      | none =>
        simp only [Option.toList, List.nil_append]
        have h1 : s1.stopReturned = false := by rw [hret]; simp
        have ihv := ih hi1
        rw [h1] at ihv
        exact ihv
      | some ev =>
        cases ev with
        | dataReceived =>
          have h1 : s1.stopReturned = false := by rw [hret]; simp
          have ihv := ih hi1
          rw [h1] at ihv
          simpa [noDataAfterStop] using ihv
        | stopReturn =>
          have h1 : s1.stopReturned = true := by rw [hret]; simp
          have ihv := ih hi1
          rw [h1] at ihv
          simpa [noDataAfterStop] using ihv

theorem noDataAfterStop_split (t1 t2 : List SysEvent)
    (h : noDataAfterStop false (t1 ++ SysEvent.stopReturn :: t2)) :
    SysEvent.dataReceived ∉ t2 := by
  induction t1 with
  | nil => simpa [noDataAfterStop] using h
  | cons e t1 ih =>
    cases e with
    | dataReceived => exact ih (by simpa [noDataAfterStop] using h)
    | stopReturn =>
      have h' : SysEvent.dataReceived ∉ t1 ++ SysEvent.stopReturn :: t2 := by
        simpa [noDataAfterStop] using h
      intro hm
      exact h' (by simp [hm])

/-- C9: in every interleaved execution of the read loop and `stop()`
(starting from any state in which `stop()` has not yet returned), no
`data_received` event is emitted after the `stop()` call has returned —
`stop()` clears `_running` and then `QThread.wait` blocks until `run` has
exited its last iteration. -/
theorem no_data_received_after_stop_returns (s : SysState) (t t1 t2 : List SysEvent)
    (s' : SysState) (hex : SysExec s t s') (h0 : s.stopReturned = false)
    (hsplit : t = t1 ++ SysEvent.stopReturn :: t2) :
    SysEvent.dataReceived ∉ t2 := by
  have hi : StopInv s := by intro hr; rw [h0] at hr; simp at hr
  have hnd := sysExec_noData hex hi
  rw [h0] at hnd
  rw [hsplit] at hnd
  exact noDataAfterStop_split t1 t2 hnd

/-- Witness for C9: a concrete execution in which `stop()` is requested,
the loop test observes `_running = False` and exits, and `wait` returns;
the trace after the `stopReturn` event contains no `dataReceived`. -/
theorem no_data_received_after_stop_returns_witness :
    SysEvent.dataReceived ∉ ([] : List SysEvent) :=
  no_data_received_after_stop_returns
    { running := true, rpc := RPC.top, polls := [], stopRequested := false,
      stopReturned := false }
    [SysEvent.stopReturn] [] []
    { running := false, rpc := RPC.exited, polls := [], stopRequested := true,
      stopReturned := true }
    (SysExec.step _ Option.none _ _ _ (SysStep.stopRequest _ rfl)
      (SysExec.step _ Option.none _ _ _ (SysStep.checkFalse _ rfl rfl)
        (SysExec.step _ (Option.some SysEvent.stopReturn) _ _ _
          (SysStep.stopWaitReturn _ rfl rfl rfl)
          (SysExec.done _))))
    rfl rfl

end SimpleCOM
